import Mathlib

/-!
Shallow embedding of the query layer of the `ts-countries-list` library
(`src/index.ts`, second revision in the bundle) together with the parts of
the data model it operates on (`src/types.ts`).  Country records become a
Lean structure; optional fields (`officialName`, `nativeName`, `capital`,
`currency`, `phoneCode`) become `Option`; the module-level `countries`
table becomes an explicit `List Country` parameter, so that properties can
be stated for every state of the table.  JavaScript string operations used
by the code (`toLowerCase`, `toUpperCase`, `includes`, `startsWith("+")`)
are modelled over the character list of a `String`, and JavaScript string
truthiness (`undefined` and `""` are falsy) is modelled by `truthy`.
-/

/-- Currency structure as in the data model: `{code, name, symbol}`. -/
structure Currency where
  code : String
  name : String
  symbol : String
deriving DecidableEq

/-- Country record, with optional fields as `Option` (the `types.ts`
declaration `Currency = NonNullable<Country["currency"]>` and the
pervasive `c.currency?.code` accesses show `currency` is optional; the
spec lists `officialName`, `nativeName`, `capital`, `phoneCode` as
optional as well). -/
structure Country where
  name : String
  officialName : Option String
  nativeName : Option String
  alpha2 : String
  alpha3 : String
  numeric : String
  capital : Option String
  region : String
  subregion : String
  continent : String
  languages : List String
  currency : Option Currency
  phoneCode : Option String
deriving DecidableEq

/-- JavaScript `toLowerCase`, modelled characterwise (ASCII case map). -/
def jsToLower (s : String) : String :=
  ⟨s.data.map Char.toLower⟩

/-- JavaScript `toUpperCase`, modelled characterwise (ASCII case map). -/
def jsToUpper (s : String) : String :=
  ⟨s.data.map Char.toUpper⟩

/-- Substring containment on character lists: `charsContain sub l` is true
iff `sub` occurs contiguously inside `l` (the semantics of JavaScript
`String.prototype.includes`). -/
def charsContain (sub : List Char) : List Char → Bool
  | [] => sub.isEmpty
  | c :: rest => sub.isPrefixOf (c :: rest) || charsContain sub rest

/-- JavaScript `s.includes(sub)`. -/
def jsIncludes (s sub : String) : Bool :=
  charsContain sub.data s.data

/-- JavaScript `p.startsWith("+")`: the first character is `'+'`. -/
def jsStartsWithPlus (p : String) : Bool :=
  match p.data with
  | [] => false
  | c :: _ => c == '+'

/-- JavaScript truthiness of an optional string: `undefined` and the
empty string are falsy, every other string is truthy. -/
def truthy : Option String → Bool
  | none => false
  | some s => !s.data.isEmpty

/-- `getCountryByAlpha2`: first record whose `alpha2` equals the code. -/
def getCountryByAlpha2 (countries : List Country) (code : String) : Option Country :=
  countries.find? (fun c => c.alpha2 == code)

/-- `getCountryByCode`: uppercases the input, then returns the first
record matching on `alpha2` or `alpha3` against the uppercased input, or
on `numeric` against the raw input. -/
def getCountryByCode (countries : List Country) (code : String) : Option Country :=
  let upperCode := jsToUpper code
  countries.find? (fun c =>
    c.alpha2 == upperCode || c.alpha3 == upperCode || c.numeric == code)

/-- `searchCountriesByName`: lowercases the query and keeps every record
whose lowercased `name`, `officialName` or `nativeName` contains it; an
absent optional field contributes `false` (the `?.` chain is falsy). -/
def searchCountriesByName (countries : List Country) (query : String) : List Country :=
  let lowerQuery := jsToLower query
  countries.filter (fun c =>
    jsIncludes (jsToLower c.name) lowerQuery ||
    (match c.officialName with
     | some s => jsIncludes (jsToLower s) lowerQuery
     | none => false) ||
    (match c.nativeName with
     | some s => jsIncludes (jsToLower s) lowerQuery
     | none => false))

/-- `getCountriesByPhoneCode`: prefixes `"+"` when absent, then keeps the
records whose `phoneCode` equals the normalized value. -/
def getCountriesByPhoneCode (countries : List Country) (phoneCode : String) : List Country :=
  let normalized := if jsStartsWithPlus phoneCode then phoneCode else "+" ++ phoneCode
  countries.filter (fun c => c.phoneCode == some normalized)

/-- Filter object of `getCountriesByMultipleFilters`: each criterion is
absent (`none`) or a string value. -/
structure Filters where
  region : Option String
  subregion : Option String
  continent : Option String
  language : Option String
  currency : Option String
  phoneCode : Option String
deriving DecidableEq

/-- Predicate of `getCountriesByMultipleFilters`, mirroring the chain of
early returns: a falsy criterion is skipped; a truthy one must match
exactly (`language` by containment in the record's language list;
`currency` against the optional `currency?.code`). -/
def passesFilters (filters : Filters) (c : Country) : Bool :=
  if truthy filters.region && some c.region != filters.region then false
  else if truthy filters.subregion && some c.subregion != filters.subregion then false
  else if truthy filters.continent && some c.continent != filters.continent then false
  else if truthy filters.language && !(c.languages.contains (filters.language.getD "")) then false
  else if truthy filters.currency && c.currency.map Currency.code != filters.currency then false
  else if truthy filters.phoneCode && c.phoneCode != filters.phoneCode then false
  else true

/-- `getCountriesByMultipleFilters`: conjunction of the provided criteria. -/
def getCountriesByMultipleFilters (countries : List Country) (filters : Filters) : List Country :=
  countries.filter (passesFilters filters)

/-- `regionSubregionMap` of `types.ts`, as an ordered association list
(object literal key order). -/
def regionSubregionMap : List (String × List String) :=
  [("Americas",
    ["Northern America", "South America", "Central America", "Caribbean"]),
   ("Africa",
    ["Southern Africa", "Western Africa", "Northern Africa", "Middle Africa",
     "Eastern Africa"]),
   ("Asia",
    ["Eastern Asia", "Southern Asia", "Western Asia", "South-Eastern Asia",
     "Central Asia"]),
   ("Europe",
    ["Northern Europe", "Western Europe", "Eastern Europe", "Southern Europe"]),
   ("Oceania",
    ["Australia and New Zealand", "Melanesia", "Micronesia", "Polynesia"]),
   ("Antarctica", ["Antarctica"])]

/-- `getAllRegions`: `Object.keys(regionSubregionMap)` in declared order. -/
def getAllRegions : List String :=
  regionSubregionMap.map Prod.fst

/-- Insertion into the currency map keyed by `code`: keep the first
representation on collision, append otherwise (JavaScript `Map` preserves
insertion order and `set` is guarded by `has`). -/
def insertCurrency (acc : List Currency) (cur : Currency) : List Currency :=
  if acc.any (fun x => x.code == cur.code) then acc else acc ++ [cur]

/-- `getAllCurrencies` of the shipped code: it destructures `currency`
from each record and reads `currency.code` without a guard, so a record
whose `currency` is absent makes the JavaScript throw a `TypeError`
(reading `.code` of `undefined`); the fault is modelled as `none`. -/
def getAllCurrencies (countries : List Country) : Option (List Currency) :=
  countries.foldlM
    (fun acc c =>
      match c.currency with
      | none => none
      | some cur => some (insertCurrency acc cur))
    []

/-- Spec-side counterpart of `getAllCurrencies`, following the spec's
words: distinct currency structures deduplicated by code, first
representation kept, first-occurrence order, and records lacking a
currency contribute nothing (never fails). -/
def specAllCurrencies (countries : List Country) : List Currency :=
  countries.foldl
    (fun acc c =>
      match c.currency with
      | none => acc
      | some cur => insertCurrency acc cur)
    []

/-- One step of the counting reduce: `acc[k] = (acc[k] || 0) + 1`, with
object key order preserved (update in place, append new keys). -/
def bumpCount (acc : List (String × Nat)) (k : String) : List (String × Nat) :=
  match acc with
  | [] => [(k, 1)]
  | (k', v) :: rest =>
    if k' == k then (k', v + 1) :: rest else (k', v) :: bumpCount rest k

/-- `getCountryCountByContinent`: record count per continent, as an
ordered association object. -/
def getCountryCountByContinent (countries : List Country) : List (String × Nat) :=
  countries.foldl (fun acc c => bumpCount acc c.continent) []

/-- `getTotalCountries`: size of the table. -/
def getTotalCountries (countries : List Country) : Nat :=
  countries.length

/-- Sum of the values of a counting object. -/
def sumCounts (counts : List (String × Nat)) : Nat :=
  (counts.map Prod.snd).sum

/-- `getPotentialNeighbors`: resolve by `alpha2`; empty when unresolved,
otherwise the records sharing the subregion, the country itself excluded. -/
def getPotentialNeighbors (countries : List Country) (countryCode : String) : List Country :=
  match getCountryByAlpha2 countries countryCode with
  | none => []
  | some country =>
    countries.filter (fun c =>
      c.subregion == country.subregion && c.alpha2 != country.alpha2)

/-- Result shape of `compareCountries`. -/
structure CountryComparison where
  country1 : Option Country
  country2 : Option Country
  sameCurrency : Bool
  sameRegion : Bool
  sameContinent : Bool
  sharedLanguages : List String
deriving DecidableEq

/-- `compareCountries`: resolves both codes by `alpha2` and compares the
optional attribute chains with JavaScript `===` (so two absent sides
compare equal, `undefined === undefined`); `sharedLanguages` is the
intersection in the first record's order, empty unless both resolve. -/
def compareCountries (countries : List Country) (code1 code2 : String) : CountryComparison :=
  let c1 := getCountryByAlpha2 countries code1
  let c2 := getCountryByAlpha2 countries code2
  let sharedLanguages :=
    match c1, c2 with
    | some a, some b => a.languages.filter (fun lang => b.languages.contains lang)
    | _, _ => []
  { country1 := c1
    country2 := c2
    sameCurrency := (c1.bind Country.currency).map Currency.code ==
      (c2.bind Country.currency).map Currency.code
    sameRegion := c1.map Country.region == c2.map Country.region
    sameContinent := c1.map Country.continent == c2.map Country.continent
    sharedLanguages := sharedLanguages }

/-- Optional currency code reachable from an optional record: the value of
the JavaScript chain `c?.currency?.code`. -/
def optCurrencyCode (o : Option Country) : Option String :=
  (o.bind Country.currency).map Currency.code

/-- Modelled from the spec: the countries data file (`src/countries`) is
not part of the sources, so concrete records used as inputs are modelled
from the spec's examples.  United States record: alpha2 `US`, alpha3
`USA`, numeric `840`. -/
def unitedStates : Country :=
  { name := "United States"
    officialName := some "United States of America"
    nativeName := some "United States"
    alpha2 := "US"
    alpha3 := "USA"
    numeric := "840"
    capital := some "Washington"
    region := "Americas"
    subregion := "Northern America"
    continent := "North America"
    languages := ["English"]
    currency := some ⟨"USD", "United States dollar", "$"⟩
    phoneCode := some "+1" }

/-- Modelled from the spec: a European record with its own currency. -/
def france : Country :=
  { name := "France"
    officialName := some "French Republic"
    nativeName := some "France"
    alpha2 := "FR"
    alpha3 := "FRA"
    numeric := "250"
    capital := some "Paris"
    region := "Europe"
    subregion := "Western Europe"
    continent := "Europe"
    languages := ["French"]
    currency := some ⟨"EUR", "Euro", "E"⟩
    phoneCode := some "+33" }

/-- Modelled from the spec: a second Northern America record, sharing the
subregion of the United States. -/
def canada : Country :=
  { name := "Canada"
    officialName := some "Canada"
    nativeName := some "Canada"
    alpha2 := "CA"
    alpha3 := "CAN"
    numeric := "124"
    capital := some "Ottawa"
    region := "Americas"
    subregion := "Northern America"
    continent := "North America"
    languages := ["English", "French"]
    currency := some ⟨"CAD", "Canadian dollar", "$"⟩
    phoneCode := some "+1" }

/-- Modelled from the spec: a territory record whose optional fields,
`currency` among them, are absent (the spec notes the currency is
"optionally absent (e.g. some territories)"). -/
def antarcticaRec : Country :=
  { name := "Antarctica"
    officialName := none
    nativeName := none
    alpha2 := "AQ"
    alpha3 := "ATA"
    numeric := "010"
    capital := none
    region := "Antarctica"
    subregion := "Antarctica"
    continent := "Antarctica"
    languages := []
    currency := none
    phoneCode := none }

/-- Sample table used to instantiate the general theorems. -/
def sampleTable : List Country :=
  [france, unitedStates, canada, antarcticaRec]

/-! ## Helper lemmas -/

lemma charsContain_nil (l : List Char) : charsContain [] l = true := by
  cases l <;> rfl

lemma jsIncludes_empty (s : String) : jsIncludes s "" = true := by
  simpa [jsIncludes] using charsContain_nil s.data

lemma truthy_none : truthy none = false := rfl

lemma truthy_of_startsWithPlus {p : String} (h : jsStartsWithPlus p = true) :
    truthy (some p) = true := by
  unfold jsStartsWithPlus at h
  cases hd : p.data with
  | nil => rw [hd] at h; exact absurd h (by simp)
  | cons c t =>
    show (!p.data.isEmpty) = true
    rw [hd]
    rfl

lemma optFieldMatch (o : Option String) (q : String) :
    ((match o with
      | some s => jsIncludes (jsToLower s) q
      | none => false) = true) ↔
      ∃ s, o = some s ∧ jsIncludes (jsToLower s) q = true := by
  cases o <;> simp

lemma sumCounts_bumpCount (acc : List (String × Nat)) (k : String) :
    sumCounts (bumpCount acc k) = sumCounts acc + 1 := by
  induction acc with
  | nil => rfl
  | cons p rest ih =>
    obtain ⟨k', v⟩ := p
    by_cases hk : (k' == k) = true
    · simp [bumpCount, hk, sumCounts]
      omega
    · simp only [bumpCount, hk, if_false, Bool.false_eq_true]
      simp [sumCounts] at ih ⊢
      omega

lemma sumCounts_countFold (countries : List Country) (acc : List (String × Nat)) :
    sumCounts (countries.foldl (fun a c => bumpCount a c.continent) acc) =
      sumCounts acc + countries.length := by
  induction countries generalizing acc with
  | nil => simp
  | cons c rest ih =>
    simp only [List.foldl_cons, List.length_cons, ih, sumCounts_bumpCount]
    omega

/-! ## Claim theorems -/

/-- Claim C1: the claim states that `getAllCurrencies` never faults and
skips records lacking a currency, but the shipped code reads
`currency.code` without a guard, so on a table containing a record whose
currency is absent it throws (modelled as `none`); the spec-side
aggregation on the same table returns the remaining currency, exhibiting
the divergence. -/
theorem getAllCurrencies_faults_on_absent_currency :
    getAllCurrencies [france, antarcticaRec] = none ∧
    specAllCurrencies [france, antarcticaRec] = [⟨"EUR", "Euro", "E"⟩] := ⟨rfl, rfl⟩

/-- Claim C2, counterexample: with the single criterion phoneCode = "1",
the multi-filter path misses the record whose phoneCode is "+1", while
getCountriesByPhoneCode normalizes "1" to "+1" and finds it — the two
paths disagree, refuting the claim as stated. -/
theorem multiFilter_phoneCode_counterexample :
    getCountriesByMultipleFilters [unitedStates] ⟨none, none, none, none, none, some "1"⟩ ≠
      getCountriesByPhoneCode [unitedStates] "1" := by decide

/-- Claim C2 (amended): the multi-filter path applies no "+"-prefix
normalization and exact-matches the raw phoneCode value; consequently it
agrees with getCountriesByPhoneCode exactly on inputs already carrying
the "+" prefix, where normalization is the identity. -/
theorem multiFilter_phoneCode_agrees_on_plus_prefixed
    (countries : List Country) (p : String) (h : jsStartsWithPlus p = true) :
    getCountriesByMultipleFilters countries ⟨none, none, none, none, none, some p⟩ =
      getCountriesByPhoneCode countries p := by
  unfold getCountriesByMultipleFilters getCountriesByPhoneCode
  rw [if_pos h]
  apply List.filter_congr
  intro c _
  have hp : truthy (some p) = true := truthy_of_startsWithPlus h
  simp only [passesFilters, hp, truthy_none, Bool.false_and, if_false, Bool.true_and]
  cases hpc : c.phoneCode == some p <;> simp [bne, hpc]

/-- Witness for the amended claim C2 at the concrete phone code "+33" on
the sample table. -/
theorem multiFilter_phoneCode_agrees_witness :
    getCountriesByMultipleFilters sampleTable ⟨none, none, none, none, none, some "+33"⟩ =
      getCountriesByPhoneCode sampleTable "+33" :=
  multiFilter_phoneCode_agrees_on_plus_prefixed sampleTable "+33" rfl

/-- Claim C3, counterexample: comparing a record having no currency with
itself yields sameCurrency = true (undefined === undefined), refuting the
claim that sameCurrency is false whenever either currency is absent. -/
theorem compare_sameCurrency_counterexample :
    (compareCountries [antarcticaRec] "AQ" "AQ").sameCurrency = true := by decide

/-- Claim C3 (amended): the sameCurrency field of compareCountries is
true exactly when the two optional currency codes (absent when the record
does not resolve or its currency is absent) coincide — so it is true when
both sides are absent, and false when exactly one side has a code or the
codes differ. -/
theorem compare_sameCurrency_iff_codes_equal
    (countries : List Country) (code1 code2 : String) :
    (compareCountries countries code1 code2).sameCurrency = true ↔
      optCurrencyCode (getCountryByAlpha2 countries code1) =
        optCurrencyCode (getCountryByAlpha2 countries code2) := by
  simp [compareCountries, optCurrencyCode]

/-- Claim C4: getCountryByCode uppercases the input and returns the first
record whose alpha2 or alpha3 equals the uppercased input or whose
numeric code equals the raw input; on the sample table, "us", "US",
"usa" and "840" all resolve to the United States record. -/
theorem getCountryByCode_spec :
    (∀ (countries : List Country) (code : String),
       getCountryByCode countries code =
         countries.find? (fun c =>
           c.alpha2 == jsToUpper code || c.alpha3 == jsToUpper code ||
             c.numeric == code)) ∧
    getCountryByCode sampleTable "us" = some unitedStates ∧
    getCountryByCode sampleTable "US" = some unitedStates ∧
    getCountryByCode sampleTable "usa" = some unitedStates ∧
    getCountryByCode sampleTable "840" = some unitedStates := by
  refine ⟨fun countries code => rfl, rfl, rfl, rfl, rfl⟩

/-- Claim C5: getAllRegions always returns exactly the declared key order
of regionSubregionMap, independent of the country table (it does not read
the table at all). -/
theorem getAllRegions_fixed :
    getAllRegions = ["Americas", "Africa", "Asia", "Europe", "Oceania", "Antarctica"] := rfl

/-- Claim C6: searchCountriesByName returns exactly the records whose
name, officialName or nativeName contains the query case-insensitively
(absent optional fields never match), and the empty query returns the
whole table. -/
theorem searchCountriesByName_spec (countries : List Country) (query : String) :
    (∀ c, c ∈ searchCountriesByName countries query ↔
       c ∈ countries ∧
         (jsIncludes (jsToLower c.name) (jsToLower query) = true ∨
          (∃ s, c.officialName = some s ∧
            jsIncludes (jsToLower s) (jsToLower query) = true) ∨
          (∃ s, c.nativeName = some s ∧
            jsIncludes (jsToLower s) (jsToLower query) = true))) ∧
    searchCountriesByName countries "" = countries := by
  constructor
  · intro c
    simp only [searchCountriesByName, List.mem_filter, Bool.or_eq_true, optFieldMatch]
    rw [or_assoc]
  · apply List.filter_eq_self.mpr
    intro c _
    simp only [Bool.or_eq_true]
    exact Or.inl (Or.inl (jsIncludes_empty _))

/-- Claim C7: getPotentialNeighbors is empty when the alpha2 code does
not resolve; otherwise every returned record shares the resolved record's
subregion and none carries the resolved record's alpha2. -/
theorem getPotentialNeighbors_spec (countries : List Country) (code : String) :
    (getCountryByAlpha2 countries code = none →
       getPotentialNeighbors countries code = []) ∧
    (∀ r, getCountryByAlpha2 countries code = some r →
       ∀ c ∈ getPotentialNeighbors countries code,
         c.subregion = r.subregion ∧ c.alpha2 ≠ r.alpha2) := by
  constructor
  · intro h
    unfold getPotentialNeighbors
    rw [h]
  · intro r hr c hc
    unfold getPotentialNeighbors at hc
    rw [hr] at hc
    simp only [List.mem_filter, Bool.and_eq_true, beq_iff_eq, bne_iff_ne] at hc
    exact hc.2

/-- Witness for claim C7: an unresolved code on the empty table gives no
neighbors, and Canada is a neighbor of the United States on the sample
table, sharing its subregion with a different alpha2. -/
theorem getPotentialNeighbors_spec_witness :
    getPotentialNeighbors [] "US" = [] ∧
    (canada.subregion = unitedStates.subregion ∧ canada.alpha2 ≠ unitedStates.alpha2) :=
  ⟨(getPotentialNeighbors_spec [] "US").1 rfl,
   (getPotentialNeighbors_spec sampleTable "US").2 unitedStates rfl canada (by decide)⟩

/-- Claim C8: the values of getCountryCountByContinent sum to
getTotalCountries — every record is counted under exactly one continent. -/
theorem countByContinent_sums_to_total (countries : List Country) :
    sumCounts (getCountryCountByContinent countries) = getTotalCountries countries := by
  simpa [getCountryCountByContinent, getTotalCountries, sumCounts]
    using sumCounts_countFold countries []

/-- Claim C9: when every criterion of the filters object is falsy (absent
or the empty string), getCountriesByMultipleFilters returns the entire
table in table order — a falsy criterion is treated as not supplied. -/
theorem multiFilter_all_falsy_returns_table (countries : List Country) (filters : Filters)
    (h1 : truthy filters.region = false) (h2 : truthy filters.subregion = false)
    (h3 : truthy filters.continent = false) (h4 : truthy filters.language = false)
    (h5 : truthy filters.currency = false) (h6 : truthy filters.phoneCode = false) :
    getCountriesByMultipleFilters countries filters = countries := by
  unfold getCountriesByMultipleFilters
  apply List.filter_eq_self.mpr
  intro c _
  simp [passesFilters, h1, h2, h3, h4, h5, h6]

/-- Witness for claim C9: a filters object mixing absent criteria and
empty strings returns the sample table unchanged. -/
theorem multiFilter_all_falsy_witness :
    getCountriesByMultipleFilters sampleTable ⟨some "", none, some "", none, some "", none⟩ =
      sampleTable :=
  multiFilter_all_falsy_returns_table sampleTable ⟨some "", none, some "", none, some "", none⟩
    rfl rfl rfl rfl rfl rfl

/-- Claim C10: when neither alpha2 code resolves, compareCountries
returns both records absent, empty sharedLanguages, and all three flags
true (each comparison reduces to undefined === undefined); moreover the
sameCurrency flag is also true whenever both records resolve but both
lack a currency. -/
theorem compareCountries_unresolved_spec (countries : List Country) (code1 code2 : String) :
    (getCountryByAlpha2 countries code1 = none →
       getCountryByAlpha2 countries code2 = none →
       compareCountries countries code1 code2 = ⟨none, none, true, true, true, []⟩) ∧
    (∀ r1 r2, getCountryByAlpha2 countries code1 = some r1 →
       getCountryByAlpha2 countries code2 = some r2 →
       r1.currency = none → r2.currency = none →
       (compareCountries countries code1 code2).sameCurrency = true) := by
  constructor
  · intro h1 h2
    simp [compareCountries, h1, h2]
  · intro r1 r2 h1 h2 hc1 hc2
    simp [compareCountries, h1, h2, hc1, hc2]

/-- Witness for claim C10: two unresolved codes on the empty table give
the all-true comparison with absent records, and a currency-less record
compared with itself has sameCurrency = true. -/
theorem compareCountries_unresolved_witness :
    compareCountries [] "US" "FR" = ⟨none, none, true, true, true, []⟩ ∧
    (compareCountries [antarcticaRec] "AQ" "AQ").sameCurrency = true :=
  ⟨(compareCountries_unresolved_spec [] "US" "FR").1 rfl rfl,
   (compareCountries_unresolved_spec [antarcticaRec] "AQ" "AQ").2 antarcticaRec antarcticaRec
     rfl rfl rfl rfl⟩
